import Mathlib

/-!
Shallow embedding of the Snap2Sheet extraction core: the Gemini extraction
client (`extractDataFromImage` in services/geminiService.ts) and the batch
orchestrator (`handleImagesSelected` in App.tsx), together with the data
model from types.ts.  External collaborators (the remote model, JSON.parse
and its engine-generated error message, id/timestamp generation) are
passed in as explicit parameters; everything the repository's own code
does is translated directly.
-/

/-- JSON values, as produced by the external JSON.parse.  Numbers are
modelled as integers (only truthiness and equality of small literals
matter to the code under verification). -/
inductive Json where
  | null
  | bool (b : Bool)
  | num (n : Int)
  | str (s : String)
  | arr (elems : List Json)
  | obj (fields : List (String × Json))

/-- JavaScript truthiness of a JSON value (`data[0] || {}` and
`val ? ... : ''` in the source). -/
def jsTruthy : Json → Bool
  | .null => false
  | .bool b => b
  | .num n => n != 0
  | .str s => !s.data.isEmpty
  | .arr _ => true
  | .obj _ => true

/-- JavaScript falsiness of a string (`!text` in the source): true exactly
for the empty string (the absent case is handled separately). -/
def jsStrFalsy (s : String) : Bool := s.data.isEmpty

/-- The whitespace characters relevant to the texts handled here; JS
`String.prototype.trim` strips these (amongst other Unicode space
characters that never occur in the strings the code builds). -/
def isJsWhitespace (c : Char) : Bool := c = ' ' || c = '\n' || c = '\t' || c = '\r'

/-- Model of JS `String.prototype.trim`. -/
def jsTrim (s : String) : String :=
  ⟨((s.data.dropWhile isJsWhitespace).reverse.dropWhile isJsWhitespace).reverse⟩

/-- Model of JS `String.prototype.startsWith`. -/
def strStartsWith (s pre : String) : Bool := pre.data.isPrefixOf s.data

/-- Model of JS `String.prototype.endsWith`. -/
def strEndsWith (s suf : String) : Bool := suf.data.isSuffixOf s.data

/-- Drop the first `n` characters of a string. -/
def strDrop (s : String) (n : Nat) : String := ⟨s.data.drop n⟩

/-- Drop the last `n` characters of a string. -/
def strDropRight (s : String) (n : Nat) : String := ⟨s.data.take (s.data.length - n)⟩

/-- Does `pat` occur as a contiguous substring of `l`? -/
def hasSubstr (pat : List Char) : List Char → Bool
  | [] => pat.isEmpty
  | c :: rest => pat.isPrefixOf (c :: rest) || hasSubstr pat rest

/-- Model of JS `String.prototype.includes`. -/
def strIncludes (s pat : String) : Bool := hasSubstr pat.data s.data

/-- An error value as seen by the catch block: JS errors expose `status`,
`code` and `message` fields (absent fields modelled as `none` / `""`) and
may or may not be a SyntaxError (`error instanceof SyntaxError`). -/
structure JsError where
  status : Option Nat
  code : Option Nat
  message : String
  isSyntaxError : Bool
deriving DecidableEq, Repr

/-- `error.status === 429 || error.code === 429 ||
(error.message && error.message.includes("429"))` from the catch block. -/
def isRateLimitB (e : JsError) : Bool :=
  e.status == some 429 || e.code == some 429 || strIncludes e.message "429"

/-- `throw new Error("No data returned from AI")` (line 64 of the service). -/
def noDataError : JsError := ⟨none, none, "No data returned from AI", false⟩

/-- The SyntaxError thrown by `JSON.parse` on malformed input; the message
text is produced by the JS engine, so it is a parameter of the embedding. -/
def mkSyntaxError (msg : String) : JsError := ⟨none, none, msg, true⟩

/-- `throw new Error("Failed to parse the AI response as valid JSON. Please try again.")`
(line 99 of the service). -/
def parseFailError : JsError :=
  ⟨none, none, "Failed to parse the AI response as valid JSON. Please try again.", false⟩

/-- `if (error instanceof SyntaxError) throw new Error(...); throw error;` -/
def rethrowError (e : JsError) : JsError :=
  if e.isSyntaxError then parseFailError else e

/-- `text.replace(/^\x60\x60\x60(json)?/, "")`: the regex removes a leading
triple-backtick marker together with the literal tag `json` when present;
any other language tag is left in place. -/
def stripLeadingFence (t : String) : String :=
  if strStartsWith t "```json" then strDrop t 7
  else if strStartsWith t "```" then strDrop t 3
  else t

/-- `text.replace(/\x60\x60\x60$/, "")`: removes a trailing triple-backtick
marker when present. -/
def stripTrailingFence (t : String) : String :=
  if strEndsWith t "```" then strDropRight t 3 else t

/-- Lines 67-70 of the service: trim, then strip a Markdown code fence if
the text starts with a triple-backtick marker, then trim again. -/
def cleanResponseText (raw : String) : String :=
  let t := jsTrim raw
  if strStartsWith t "```" then jsTrim (stripTrailingFence (stripLeadingFence t))
  else t

/-- Lines 76-79 of the service:
`if (Array.isArray(data)) return data[0] || \x7b\x7d; return data;`. -/
def normalizeData : Json → Json
  | .arr xs =>
      match xs with
      | [] => .obj []
      | x :: _ => if jsTruthy x then x else .obj []
  | d => d

/-- Lines 63-79 of the service: the body of the `try` block after the
remote call returned, given the (optional) response text.  `jsonParse`
models `JSON.parse`; `parseErrMsg` models the engine-generated message of
the SyntaxError it throws on failure. -/
def processText (jsonParse : String → Option Json) (parseErrMsg : String → String) :
    Option String → Except JsError Json
  | none => .error noDataError
  | some t =>
    if jsStrFalsy t then .error noDataError
    else
      let cleaned := cleanResponseText t
      match jsonParse cleaned with
      | none => .error (mkSyntaxError (parseErrMsg cleaned))
      | some d => .ok (normalizeData d)

/-- One remote call either yields a response (whose `text` may be absent)
or throws an error. -/
inductive AttemptOutcome where
  | response (text : Option String)
  | fail (e : JsError)

/-- The outcome of one iteration of the `try` block: a thrown remote error
propagates, a response is post-processed. -/
def attemptStep (jsonParse : String → Option Json) (parseErrMsg : String → String) :
    AttemptOutcome → Except JsError Json
  | .response t => processText jsonParse parseErrMsg t
  | .fail e => .error e

/-- `const maxRetries = 5;` (line 41 of the service). -/
def maxRetries : Nat := 5

/-- The observable result of one `extractDataFromImage` invocation: the
returned record or thrown error, the backoff delays awaited (in ms, in
order), and the number of remote calls made. -/
structure RunResult where
  result : Except JsError Json
  delays : List Nat
  calls : Nat

/-- The `while (true)` retry loop (lines 44-103 of the service), with
`step i` the outcome of the `i`-th remote call.  `attempt` is the mutable
counter of the source; on a rate-limited failure with `attempt < maxRetries`
the loop increments `attempt`, waits `Math.pow(2, attempt + 1) * 1000` ms
and retries, otherwise it rethrows.  `fuel` only bounds the recursion: the
loop is entered with `fuel = maxRetries`, and since `attempt` grows in
lockstep as `fuel` shrinks, the guard `attempt < maxRetries` always fails
before `fuel` runs out, so the `fuel = 0` branch is unreachable. -/
def extractGo (step : Nat → Except JsError Json) (fuel attempt : Nat) (ds : List Nat) :
    RunResult :=
  match step attempt with
  | .ok d => ⟨.ok d, ds.reverse, attempt + 1⟩
  | .error e =>
    if isRateLimitB e ∧ attempt < maxRetries then
      match fuel with
      | f + 1 => extractGo step f (attempt + 1) (2 ^ (attempt + 1 + 1) * 1000 :: ds)
      | 0 => ⟨.error (rethrowError e), ds.reverse, attempt + 1⟩
    else ⟨.error (rethrowError e), ds.reverse, attempt + 1⟩

/-- The request sent to the remote model on every attempt (lines 46-61). -/
structure ModelRequest where
  mimeType : String
  data : String
  promptText : String
deriving DecidableEq, Repr

/-- `JSON.stringify` of an array of plain strings (the fixed headers
contain no characters that JSON.stringify would escape). -/
def jsStringifyStrings (xs : List String) : String :=
  "[" ++ String.intercalate "," (xs.map (fun s => "\"" ++ s ++ "\"")) ++ "]"

/-- The base instruction prompt (lines 15-26 of the service). -/
def basePrompt : String :=
  "\n    Analyze the provided image. It contains data such as a receipt, invoice, business card, or a table.\n    Extract the key information into a flat JSON object (key-value pairs).\n    \n    Rules:\n    1. Keys should be clean, readable headers.\n    2. Values should be the extracted text.\n    3. Format dates as YYYY-MM-DD if possible.\n    4. Format currency as simple numbers (e.g., 10.50) where possible, or keep the symbol if ambiguous.\n    5. CRITICAL: Remove the string \"RC\", \"RewardCash\", \"$\", \"HKD\" or any currency codes from numeric values. Return only the number.\n    6. Return ONLY the raw JSON object. Do not include Markdown formatting or conversational text.\n  "

/-- The addendum appended when a fixed header list is supplied
(lines 28-38 of the service). -/
def headersAddendum (existingHeaders : List String) : String :=
  "\n    \n    CRITICAL: The user has already established a table with the following headers:\n    " ++
  jsStringifyStrings existingHeaders ++
  "\n    \n    You MUST map the extracted data to these EXACT keys.\n    Do NOT create new keys.\n    If a specific category is not found in the image, set the value to null or empty string.\n    "

/-- The full prompt for a given header list. -/
def buildPrompt (existingHeaders : List String) : String :=
  basePrompt ++ (if existingHeaders.isEmpty then "" else headersAddendum existingHeaders)

/-- The request built by `ai.models.generateContent` for one invocation. -/
def mkRequest (base64Image : String) (existingHeaders : List String) : ModelRequest :=
  ⟨"image/jpeg", base64Image, buildPrompt existingHeaders⟩

/-- `extractDataFromImage(base64Image, existingHeaders)`.  `env req i` is
the outcome of the `i`-th remote call for request `req`; `jsonParse` and
`parseErrMsg` model `JSON.parse`. -/
def extractDataFromImage (jsonParse : String → Option Json) (parseErrMsg : String → String)
    (env : ModelRequest → Nat → AttemptOutcome)
    (base64Image : String) (existingHeaders : List String := []) : RunResult :=
  extractGo
    (fun i => attemptStep jsonParse parseErrMsg (env (mkRequest base64Image existingHeaders) i))
    maxRetries 0 []

/-- The orchestrator's status values (types.ts `ExtractionStatus`). -/
inductive ExtractionStatus where
  | IDLE
  | PROCESSING
  | SUCCESS
  | ERROR
deriving DecidableEq, Repr

/-- types.ts `ProcessingState`: a status plus an optional message. -/
structure ProcessingState where
  status : ExtractionStatus
  message : Option String
deriving DecidableEq, Repr

/-- One element of the array handed to `handleImagesSelected`. -/
structure ImageInput where
  base64 : String
  fileName : String
deriving DecidableEq, Repr

/-- types.ts `TableRow`. -/
structure TableRow where
  id : String
  data : Json
  sourceImageName : String
  timestamp : String

/-- The fixed header list established at startup (App.tsx `FIXED_HEADERS`). -/
def FIXED_HEADERS : List String :=
  ["日期", "兑换第三方奖賞积分所得", "推广", "Travel Guru会员计划",
   "汇丰Pulse银联双币卡额外奖赏", "最红自主奖赏", "基本消费", "您已赚取"]

/-- The observable effects of one `handleImagesSelected` run:
`statusEvents` records every `setProcessingState` call in order, `rows`
the table rows appended in order, `pauses` the inter-request waits (image
index paired with the wait in ms), `errors` the failed filenames,
`processedCount` the success counter, and `scheduledReset` the state
change scheduled by the final `setTimeout` (delay in ms, state set). -/
structure BatchResult where
  statusEvents : List ProcessingState
  rows : List TableRow
  pauses : List (Nat × Nat)
  errors : List String
  processedCount : Nat
  scheduledReset : Option (Nat × ProcessingState)

/-- The progress message emitted before each call (App.tsx line 147). -/
def processingMsg (i total : Nat) (fileName : String) : String :=
  "Processing " ++ toString (i + 1) ++ " of " ++ toString total ++ ": " ++ fileName

/-- The summary message on success (App.tsx lines 177-181). -/
def successMessage (processedCount total failed : Nat) : String :=
  "Successfully processed " ++ toString processedCount ++ " of " ++ toString total ++
  " images" ++ (if failed = 0 then "" else " (" ++ toString failed ++ " failed)") ++ "."

/-- The terminal state set after the loop (App.tsx lines 176-184). -/
def finalState (total processedCount failed : Nat) : ProcessingState :=
  if processedCount > 0 then ⟨.SUCCESS, some (successMessage processedCount total failed)⟩
  else ⟨.ERROR, some "Failed to process selected images."⟩

/-- The per-image `for` loop of `handleImagesSelected` (App.tsx lines
143-189), with `extract i` the result of `extractDataFromImage` for the
`i`-th image and `idGen` / `timeGen` modelling `generateId()` and
`new Date().toISOString()` at the `i`-th iteration.  The accumulators are
the source's mutable state; after the loop the terminal state is set and
the reset to IDLE is scheduled with a 4000 ms delay. -/
def batchGo (extract : Nat → Except JsError Json) (idGen timeGen : Nat → String)
    (total : Nat) :
    List ImageInput → Nat → Nat → List String → List TableRow →
    List ProcessingState → List (Nat × Nat) → BatchResult
  | [], _, processedCount, errs, rows, evs, pauses =>
      ⟨evs ++ [finalState total processedCount errs.length], rows, pauses, errs,
       processedCount, some (4000, ⟨.IDLE, none⟩)⟩
  | img :: rest, i, processedCount, errs, rows, evs, pauses =>
      let evs' := evs ++ [⟨.PROCESSING, some (processingMsg i total img.fileName)⟩]
      let step : Nat × List String × List TableRow :=
        match extract i with
        | .ok d =>
            (processedCount + 1, errs, rows ++ [⟨idGen i, d, img.fileName, timeGen i⟩])
        | .error _ => (processedCount, errs ++ [img.fileName], rows)
      let pauses' := if i < total - 1 then pauses ++ [(i, 5000)] else pauses
      batchGo extract idGen timeGen total rest (i + 1) step.1 step.2.1 step.2.2 evs' pauses'

/-- `handleImagesSelected(images)` (App.tsx lines 134-191).  An empty
selection returns immediately with no effects; otherwise the run starts
with the "Starting processing..." status and enters the loop. -/
def handleImagesSelected (extract : Nat → Except JsError Json) (idGen timeGen : Nat → String)
    (images : List ImageInput) : BatchResult :=
  if images.isEmpty then ⟨[], [], [], [], 0, none⟩
  else
    batchGo extract idGen timeGen images.length images 0 0 [] []
      [⟨.PROCESSING, some ("Starting processing of " ++ toString images.length ++ " image(s)...")⟩] []

/-- `extract i` succeeded. -/
def isOkB (r : Except JsError Json) : Bool :=
  match r with
  | .ok _ => true
  | .error _ => false

/-- Key list of a returned record (empty for non-object values). -/
def recordKeys : Json → List String
  | .obj fields => fields.map (fun f => f.1)
  | _ => []

/-- The PROCESSING events emitted by the loop from index `i` on. -/
def tailEvents (total : Nat) : Nat → List ImageInput → List ProcessingState
  | _, [] => []
  | i, img :: rest =>
      ⟨.PROCESSING, some (processingMsg i total img.fileName)⟩ :: tailEvents total (i + 1) rest

/-- The rows appended by the loop from index `i` on. -/
def tailRows (extract : Nat → Except JsError Json) (idGen timeGen : Nat → String) :
    Nat → List ImageInput → List TableRow
  | _, [] => []
  | i, img :: rest =>
      (match extract i with
       | .ok d => [⟨idGen i, d, img.fileName, timeGen i⟩]
       | .error _ => []) ++ tailRows extract idGen timeGen (i + 1) rest

/-- The failed filenames recorded by the loop from index `i` on. -/
def tailErrs (extract : Nat → Except JsError Json) : Nat → List ImageInput → List String
  | _, [] => []
  | i, img :: rest =>
      (match extract i with
       | .ok _ => []
       | .error _ => [img.fileName]) ++ tailErrs extract (i + 1) rest

/-- The number of successes seen by the loop from index `i` on. -/
def tailOk (extract : Nat → Except JsError Json) : Nat → List ImageInput → Nat
  | _, [] => 0
  | i, _ :: rest => (if isOkB (extract i) then 1 else 0) + tailOk extract (i + 1) rest

/-- The inter-request pauses performed by the loop from index `i` on. -/
def tailPauses (total : Nat) : Nat → List ImageInput → List (Nat × Nat)
  | _, [] => []
  | i, _ :: rest => (if i < total - 1 then [(i, 5000)] else []) ++ tailPauses total (i + 1) rest

/-- Closed form of the loop: starting at index `i` with the given
accumulators, the run appends exactly the per-image effects of the
remaining images followed by the terminal status and the scheduled reset. -/
theorem batchGo_eq (extract : Nat → Except JsError Json) (idGen timeGen : Nat → String)
    (total : Nat) (imgs : List ImageInput) :
    ∀ (i p : Nat) (errs : List String) (rows : List TableRow)
      (evs : List ProcessingState) (pauses : List (Nat × Nat)),
      batchGo extract idGen timeGen total imgs i p errs rows evs pauses =
        ⟨evs ++ tailEvents total i imgs ++
           [finalState total (p + tailOk extract i imgs)
              (errs.length + (tailErrs extract i imgs).length)],
         rows ++ tailRows extract idGen timeGen i imgs,
         pauses ++ tailPauses total i imgs,
         errs ++ tailErrs extract i imgs,
         p + tailOk extract i imgs,
         some (4000, ⟨.IDLE, none⟩)⟩ := by
  induction imgs with
  | nil =>
      intro i p errs rows evs pauses
      simp [batchGo, tailEvents, tailRows, tailErrs, tailOk, tailPauses]
  | cons img rest ih =>
      intro i p errs rows evs pauses
      simp only [batchGo]
      cases hx : extract i with
      | ok d =>
          by_cases hp : i < total - 1 <;>
            simp [ih, tailEvents, tailRows, tailErrs, tailOk, tailPauses, hx, isOkB, hp,
              List.append_assoc, Nat.add_assoc, Nat.add_comm, Nat.add_left_comm]
      | error e =>
          by_cases hp : i < total - 1 <;>
            simp [ih, tailEvents, tailRows, tailErrs, tailOk, tailPauses, hx, isOkB, hp,
              List.append_assoc, Nat.add_assoc, Nat.add_comm, Nat.add_left_comm]

/-- The row built for a successful image. -/
def rowFor (idGen timeGen : Nat → String) (i : Nat) (d : Json) (fileName : String) : TableRow :=
  ⟨idGen i, d, fileName, timeGen i⟩

theorem tailRows_eq (extract : Nat → Except JsError Json) (idGen timeGen : Nat → String)
    (imgs : List ImageInput) :
    ∀ i, tailRows extract idGen timeGen i imgs =
      (List.enumFrom i imgs).filterMap
        (fun q =>
          match extract q.1 with
          | .ok d => some (rowFor idGen timeGen q.1 d q.2.fileName)
          | .error _ => none) := by
  induction imgs with
  | nil => intro i; simp [tailRows]
  | cons img rest ih =>
      intro i
      cases hx : extract i <;>
        simp [tailRows, List.enumFrom_cons, List.filterMap_cons, hx, ih, rowFor]

theorem tailEvents_eq (total : Nat) (imgs : List ImageInput) :
    ∀ i, tailEvents total i imgs =
      (List.enumFrom i imgs).map
        (fun q => ⟨.PROCESSING, some (processingMsg q.1 total q.2.fileName)⟩) := by
  induction imgs with
  | nil => intro i; simp [tailEvents]
  | cons img rest ih => intro i; simp [tailEvents, List.enumFrom_cons, ih]

theorem tailOk_eq (extract : Nat → Except JsError Json) (imgs : List ImageInput) :
    ∀ i, tailOk extract i imgs =
      (List.range imgs.length).countP (fun k => isOkB (extract (i + k))) := by
  induction imgs with
  | nil => intro i; simp [tailOk]
  | cons img rest ih =>
      intro i
      simp only [tailOk, List.length_cons, List.range_succ_eq_map, List.countP_cons,
        List.countP_map, ih]
      have hfun : ((fun k => isOkB (extract (i + k))) ∘ Nat.succ) =
          (fun k => isOkB (extract (i + 1 + k))) := by
        funext k
        have h : i + (k + 1) = i + 1 + k := by omega
        simp [Function.comp, Nat.succ_eq_add_one, h]
      rw [hfun]
      cases hx : isOkB (extract i) <;> simp [hx, Nat.add_comm]

theorem tailErrs_length_eq (extract : Nat → Except JsError Json) (imgs : List ImageInput) :
    ∀ i, (tailErrs extract i imgs).length =
      (List.range imgs.length).countP (fun k => !isOkB (extract (i + k))) := by
  induction imgs with
  | nil => intro i; simp [tailErrs]
  | cons img rest ih =>
      intro i
      simp only [tailErrs, List.length_cons, List.range_succ_eq_map, List.countP_cons,
        List.countP_map]
      have hfun : ((fun k => !isOkB (extract (i + k))) ∘ Nat.succ) =
          (fun k => !isOkB (extract (i + 1 + k))) := by
        funext k
        have h : i + (k + 1) = i + 1 + k := by omega
        simp [Function.comp, Nat.succ_eq_add_one, h]
      rw [hfun, ← ih]
      cases hx : extract i <;> simp [hx, isOkB, Nat.add_comm]

theorem tailOk_add_tailErrs (extract : Nat → Except JsError Json) (imgs : List ImageInput) :
    ∀ i, tailOk extract i imgs + (tailErrs extract i imgs).length = imgs.length := by
  induction imgs with
  | nil => intro i; simp [tailOk, tailErrs]
  | cons img rest ih =>
      intro i
      cases hx : extract i <;> simp [tailOk, tailErrs, hx, isOkB, ← ih (i + 1)] <;> omega

theorem tailPauses_eq (total : Nat) (imgs : List ImageInput) :
    ∀ i, tailPauses total i imgs =
      (List.range' i imgs.length).filterMap
        (fun k => if k < total - 1 then some (k, 5000) else none) := by
  induction imgs with
  | nil => intro i; simp [tailPauses]
  | cons img rest ih =>
      intro i
      by_cases hp : i < total - 1 <;>
        simp [tailPauses, List.range'_succ, List.filterMap_cons, hp, ih]

/-- `t` has no leading or trailing whitespace (the shape of a trimmed,
non-padded JSON text). -/
def noOuterWs (t : String) : Prop :=
  t.data.dropWhile isJsWhitespace = t.data ∧
  t.data.reverse.dropWhile isJsWhitespace = t.data.reverse

theorem jsTrim_of_noOuterWs {t : String} (hw : noOuterWs t) : jsTrim t = t := by
  obtain ⟨h1, h2⟩ := hw
  apply String.ext
  simp [jsTrim, h1, h2]

theorem head_not_ws {c : Char} {rest : List Char}
    (h : List.dropWhile isJsWhitespace (c :: rest) = c :: rest) :
    isJsWhitespace c = false := by
  rw [List.dropWhile_eq_self_iff] at h
  have := h (by simp)
  simpa using this

/-- A trimmed text that does not itself start with a fence marker passes
through the Markdown cleanup unchanged. -/
theorem cleanResponseText_of_noFence {t : String} (hw : noOuterWs t)
    (hnf : strStartsWith t "```" = false) : cleanResponseText t = t := by
  simp [cleanResponseText, jsTrim_of_noOuterWs hw, hnf]

/-- A text wrapped in a code fence whose language tag is absent or exactly
`json` is cleaned back to the inner text. -/
theorem cleanResponseText_fenced (t tag : String)
    (htag : tag = "" ∨ tag = "json")
    (hne : t.data ≠ [])
    (hw : noOuterWs t) :
    cleanResponseText ("```" ++ tag ++ "\n" ++ t ++ "\n```") = t := by
  obtain ⟨h1, h2⟩ := hw
  cases ht : t.data with
  | nil => exact absurd ht hne
  | cons c rest =>
  rw [ht] at h1
  have hc : isJsWhitespace c = false := head_not_ws h1
  rw [ht] at h2
  have hsuf : ['`','`','`'] <:+ '\n'::c::(rest ++ ['\n','`','`','`']) :=
    ⟨'\n'::c::(rest ++ ['\n']), by simp⟩
  have htake : List.take (rest.length + 1) (rest ++ ['\n','`','`','`']) = rest ++ ['\n'] := by
    have hsplit : rest ++ ['\n','`','`','`'] = (rest ++ ['\n']) ++ ['`','`','`'] := by simp
    rw [hsplit]
    have hl : rest.length + 1 = (rest ++ ['\n']).length := by simp
    rw [hl, List.take_left]
  rcases htag with rfl | rfl
  · apply String.ext
    simp [cleanResponseText, jsTrim, strStartsWith, strDrop, strDropRight, strEndsWith,
      stripLeadingFence, stripTrailingFence, String.data_append, ht, hc,
      List.isPrefixOf, List.dropWhile_cons, List.reverse_append, isJsWhitespace]
    rw [if_pos hsuf, htake]
    have hc2 : ¬(((c = ' ' ∨ c = '\n') ∨ c = '\t') ∨ c = '\x0d') := by
      simpa [isJsWhitespace] using hc
    simp [List.dropWhile_cons, isJsWhitespace, List.reverse_append, hc2]
    simpa [isJsWhitespace] using h2
  · apply String.ext
    simp [cleanResponseText, jsTrim, strStartsWith, strDrop, strDropRight, strEndsWith,
      stripLeadingFence, stripTrailingFence, String.data_append, ht, hc,
      List.isPrefixOf, List.dropWhile_cons, List.reverse_append, isJsWhitespace]
    rw [if_pos hsuf, htake]
    have hc2 : ¬(((c = ' ' ∨ c = '\n') ∨ c = '\t') ∨ c = '\x0d') := by
      simpa [isJsWhitespace] using hc
    simp [List.dropWhile_cons, isJsWhitespace, List.reverse_append, hc2]
    simpa [isJsWhitespace] using h2

theorem extractGo_ok {step : Nat → Except JsError Json} {fuel attempt : Nat} {ds : List Nat}
    {d : Json} (h : step attempt = .ok d) :
    extractGo step fuel attempt ds = ⟨.ok d, ds.reverse, attempt + 1⟩ := by
  cases fuel <;> simp [extractGo, h]

theorem extractGo_error_noRetry {step : Nat → Except JsError Json} {fuel attempt : Nat}
    {ds : List Nat} {e : JsError} (h : step attempt = .error e)
    (hrl : isRateLimitB e = false) :
    extractGo step fuel attempt ds = ⟨.error (rethrowError e), ds.reverse, attempt + 1⟩ := by
  cases fuel <;> simp [extractGo, h, hrl]

/-- C1: when every remote call of an invocation fails rate-limited (status
429, code 429, or a "429" substring in the message), the client sleeps
4000, 8000, 16000, 32000 and 64000 ms before retry attempts 1-5, and the
6th consecutive rate-limited failure is raised as the final result after
exactly 6 calls, with no further retry or delay. -/
theorem extract_rateLimited_backoff_sequence
    (jsonParse : String → Option Json) (parseErrMsg : String → String)
    (env : ModelRequest → Nat → AttemptOutcome)
    (base64Image : String) (existingHeaders : List String) (es : Nat → JsError)
    (hfail : ∀ i, i ≤ 5 → env (mkRequest base64Image existingHeaders) i = .fail (es i))
    (hrl : ∀ i, i ≤ 5 → isRateLimitB (es i) = true)
    (hsx : (es 5).isSyntaxError = false) :
    extractDataFromImage jsonParse parseErrMsg env base64Image existingHeaders =
      ⟨.error (es 5), [4000, 8000, 16000, 32000, 64000], 6⟩ := by
  have h0 := hfail 0 (by omega)
  have h1 := hfail 1 (by omega)
  have h2 := hfail 2 (by omega)
  have h3 := hfail 3 (by omega)
  have h4 := hfail 4 (by omega)
  have h5 := hfail 5 (by omega)
  have r0 := hrl 0 (by omega)
  have r1 := hrl 1 (by omega)
  have r2 := hrl 2 (by omega)
  have r3 := hrl 3 (by omega)
  have r4 := hrl 4 (by omega)
  have r5 := hrl 5 (by omega)
  simp [extractDataFromImage, extractGo, attemptStep, maxRetries, rethrowError,
    h0, h1, h2, h3, h4, h5, r0, r1, r2, r3, r4, r5, hsx]

/-- Witness for C1 at a concrete rate-limited error. -/
theorem extract_rateLimited_backoff_sequence_witness :
    extractDataFromImage (fun _ => none) (fun _ => "boom")
      (fun _ _ => .fail ⟨some 429, none, "quota exhausted", false⟩) "img" [] =
      ⟨.error ⟨some 429, none, "quota exhausted", false⟩,
       [4000, 8000, 16000, 32000, 64000], 6⟩ :=
  extract_rateLimited_backoff_sequence (fun _ => none) (fun _ => "boom")
    (fun _ _ => .fail ⟨some 429, none, "quota exhausted", false⟩) "img" []
    (fun _ => ⟨some 429, none, "quota exhausted", false⟩)
    (fun _ _ => rfl) (fun _ _ => rfl) rfl

theorem processText_ok {jsonParse : String → Option Json} {parseErrMsg : String → String}
    {t : String} {j : Json} (ht : jsStrFalsy t = false)
    (hparse : jsonParse (cleanResponseText t) = some j) :
    processText jsonParse parseErrMsg (some t) = .ok (normalizeData j) := by
  simp [processText, ht, hparse]

theorem extract_first_call_ok {jsonParse : String → Option Json}
    {parseErrMsg : String → String} {env : ModelRequest → Nat → AttemptOutcome}
    {img : String} {hs : List String} {v : Json}
    (h : attemptStep jsonParse parseErrMsg (env (mkRequest img hs) 0) = .ok v) :
    extractDataFromImage jsonParse parseErrMsg env img hs = ⟨.ok v, [], 1⟩ := by
  have hstep : (fun i => attemptStep jsonParse parseErrMsg (env (mkRequest img hs) i)) 0 =
      .ok v := by simpa using h
  have := @extractGo_ok (fun i => attemptStep jsonParse parseErrMsg (env (mkRequest img hs) i))
    maxRetries 0 [] v hstep
  simpa [extractDataFromImage] using this

/-- A concrete stand-in for `JSON.parse`, defined on the handful of texts
used by the concrete runs below. -/
def demoParse : String → Option Json := fun s =>
  if s = "\x7b\"a\":1\x7d" then some (.obj [("a", .num 1)]) else
  if s = "\x7b\"a\":1,\"extra\":2\x7d" then
    some (.obj [("a", .num 1), ("extra", .num 2)]) else
  if s = "[\x7b\"a\":1\x7d,\x7b\"a\":2\x7d]" then
    some (.arr [.obj [("a", .num 1)], .obj [("a", .num 2)]]) else
  if s = "[]" then some (.arr []) else
  if s = "[null]" then some (.arr [.null]) else
  if s = "42" then some (.num 42) else
  none

/-- A concrete stand-in for the JS engine's SyntaxError message. -/
def demoMsg : String → String := fun _ => "Unexpected token"

/-- C10: a response whose text parses to a JSON value that is neither a
list nor an object is returned as-is, with no error raised. -/
theorem extract_scalar_value_passthrough
    (jsonParse : String → Option Json) (parseErrMsg : String → String)
    (env : ModelRequest → Nat → AttemptOutcome) (img : String) (hs : List String)
    (t : String) (v : Json)
    (henv : env (mkRequest img hs) 0 = .response (some t))
    (ht : jsStrFalsy t = false)
    (hparse : jsonParse (cleanResponseText t) = some v)
    (harr : ∀ xs, v ≠ .arr xs) (hobj : ∀ fs, v ≠ .obj fs) :
    extractDataFromImage jsonParse parseErrMsg env img hs = ⟨.ok v, [], 1⟩ := by
  have hnorm : normalizeData v = v := by
    cases v
    case arr xs => exact absurd rfl (harr xs)
    all_goals rfl
  apply extract_first_call_ok
  simp [attemptStep, henv, processText_ok ht hparse, hnorm]

/-- Witness for C10: the bare number 42 is returned unchanged. -/
theorem extract_scalar_value_passthrough_witness :
    extractDataFromImage demoParse demoMsg (fun _ _ => .response (some "42")) "img" [] =
      ⟨.ok (.num 42), [], 1⟩ :=
  extract_scalar_value_passthrough demoParse demoMsg
    (fun _ _ => .response (some "42")) "img" [] "42" (.num 42) rfl rfl rfl
    (fun _ h => Json.noConfusion h) (fun _ h => Json.noConfusion h)

/-- C5 (amended): a response parsing to a JSON list yields the list's
first element when that element is truthy, and the empty record when the
list is empty or its first element is falsy (`data[0] || \x7b\x7d`). -/
theorem extract_array_first_truthy_or_empty
    (jsonParse : String → Option Json) (parseErrMsg : String → String)
    (env : ModelRequest → Nat → AttemptOutcome) (img : String) (hs : List String)
    (t : String) (xs : List Json)
    (henv : env (mkRequest img hs) 0 = .response (some t))
    (ht : jsStrFalsy t = false)
    (hparse : jsonParse (cleanResponseText t) = some (.arr xs)) :
    extractDataFromImage jsonParse parseErrMsg env img hs =
      ⟨.ok (match xs with
            | [] => Json.obj []
            | x :: _ => if jsTruthy x then x else Json.obj []), [], 1⟩ := by
  apply extract_first_call_ok
  simp only [attemptStep, henv]
  rw [processText_ok ht hparse]
  cases xs <;> rfl

/-- Witness for C5: the spec's own examples, a two-record array yields its
first record and an empty array yields the empty record. -/
theorem extract_array_first_truthy_or_empty_witness :
    extractDataFromImage demoParse demoMsg
        (fun _ _ => .response (some "[\x7b\"a\":1\x7d,\x7b\"a\":2\x7d]")) "img" [] =
      ⟨.ok (.obj [("a", .num 1)]), [], 1⟩ ∧
    extractDataFromImage demoParse demoMsg
        (fun _ _ => .response (some "[]")) "img" [] =
      ⟨.ok (.obj []), [], 1⟩ :=
  ⟨extract_array_first_truthy_or_empty demoParse demoMsg
      (fun _ _ => .response (some "[\x7b\"a\":1\x7d,\x7b\"a\":2\x7d]")) "img" []
      "[\x7b\"a\":1\x7d,\x7b\"a\":2\x7d]"
      [.obj [("a", .num 1)], .obj [("a", .num 2)]] rfl rfl rfl,
   extract_array_first_truthy_or_empty demoParse demoMsg
      (fun _ _ => .response (some "[]")) "img" [] "[]" [] rfl rfl rfl⟩

/-- Counterexample for C5 as stated: for the JSON list `[null]` the client
returns the empty record, not the list's first element, although the list
is not empty — so "an empty record if and only if the list is empty"
fails. -/
theorem extract_array_falsy_first_elem_cex :
    extractDataFromImage demoParse demoMsg
        (fun _ _ => .response (some "[null]")) "img" [] = ⟨.ok (.obj []), [], 1⟩ ∧
    Json.null ≠ Json.obj [] ∧ ([Json.null] : List Json) ≠ [] :=
  ⟨rfl, fun h => Json.noConfusion h, fun h => List.noConfusion h⟩

/-- C2 (amended): a well-formed JSON text wrapped in a code fence whose
language tag is absent or exactly `json` parses to the same record as the
unwrapped text. -/
theorem extract_fence_json_or_untagged_eq_unwrapped
    (jsonParse : String → Option Json) (parseErrMsg : String → String)
    (envW envU : ModelRequest → Nat → AttemptOutcome)
    (img : String) (hs : List String) (t tag : String) (j : Json)
    (htag : tag = "" ∨ tag = "json")
    (hne : t.data ≠ []) (hw : noOuterWs t)
    (hnf : strStartsWith t "```" = false)
    (hparse : jsonParse t = some j)
    (henvW : envW (mkRequest img hs) 0 =
      .response (some ("```" ++ tag ++ "\n" ++ t ++ "\n```")))
    (henvU : envU (mkRequest img hs) 0 = .response (some t)) :
    extractDataFromImage jsonParse parseErrMsg envW img hs =
      ⟨.ok (normalizeData j), [], 1⟩ ∧
    extractDataFromImage jsonParse parseErrMsg envU img hs =
      ⟨.ok (normalizeData j), [], 1⟩ := by
  have hcleanW := cleanResponseText_fenced t tag htag hne hw
  have hcleanU := cleanResponseText_of_noFence hw hnf
  have htf : jsStrFalsy t = false := by
    cases hd : t.data with
    | nil => exact absurd hd hne
    | cons c rest => simp [jsStrFalsy, hd]
  have hwf : jsStrFalsy ("```" ++ tag ++ "\n" ++ t ++ "\n```") = false := by
    simp [jsStrFalsy, String.data_append]
  constructor
  · apply extract_first_call_ok
    simp only [attemptStep, henvW]
    rw [show processText jsonParse parseErrMsg
        (some ("```" ++ tag ++ "\n" ++ t ++ "\n```")) = .ok (normalizeData j) from
      processText_ok hwf (by rw [hcleanW]; exact hparse)]
  · apply extract_first_call_ok
    simp only [attemptStep, henvU]
    rw [processText_ok htf (by rw [hcleanU]; exact hparse)]

/-- Witness for C2 (amended) at the record text and the `json` tag. -/
theorem extract_fence_json_or_untagged_eq_unwrapped_witness :
    extractDataFromImage demoParse demoMsg
        (fun _ _ => .response (some ("```json\n\x7b\"a\":1\x7d\n```"))) "img" [] =
      ⟨.ok (.obj [("a", .num 1)]), [], 1⟩ ∧
    extractDataFromImage demoParse demoMsg
        (fun _ _ => .response (some "\x7b\"a\":1\x7d")) "img" [] =
      ⟨.ok (.obj [("a", .num 1)]), [], 1⟩ :=
  extract_fence_json_or_untagged_eq_unwrapped demoParse demoMsg
    (fun _ _ => .response (some ("```json\n\x7b\"a\":1\x7d\n```")))
    (fun _ _ => .response (some "\x7b\"a\":1\x7d"))
    "img" [] "\x7b\"a\":1\x7d" "json" (.obj [("a", .num 1)])
    (Or.inr rfl) (by decide) ⟨rfl, rfl⟩ rfl rfl rfl rfl

/-- Counterexample for C2 as stated: with the language tag `yaml` the
fence is not stripped (the regex only removes the tag `json`), so the
wrapped response raises a parse failure while the unwrapped text parses
to the record. -/
theorem extract_fence_language_tag_cex :
    (extractDataFromImage demoParse demoMsg
        (fun _ _ => .response (some "```yaml\n\x7b\"a\":1\x7d\n```")) "img" []).result =
      .error parseFailError ∧
    (extractDataFromImage demoParse demoMsg
        (fun _ _ => .response (some "\x7b\"a\":1\x7d")) "img" []).result =
      .ok (.obj [("a", .num 1)]) ∧
    ∀ (e : JsError) (j : Json), (Except.error e : Except JsError Json) ≠ .ok j :=
  ⟨rfl, rfl, fun _ _ h => Except.noConfusion h⟩

/-- C6 (amended): a malformed response (no text, or text that fails to
parse) is surfaced after a single call with no retry and no delay, as one
of the two dedicated user-readable errors — never as the raw SyntaxError —
provided the parse error's message does not contain the substring "429"
(a message that does contain "429", e.g. an error at text position 429,
is misclassified as rate-limited and retried). -/
theorem malformed_response_distinct_error_no_retry
    (jsonParse : String → Option Json) (parseErrMsg : String → String)
    (env : ModelRequest → Nat → AttemptOutcome) (img : String) (hs : List String)
    (t : Option String) (e : JsError)
    (henv : env (mkRequest img hs) 0 = .response t)
    (hp : processText jsonParse parseErrMsg t = .error e)
    (hmal : e = noDataError ∨ ∃ m, e = mkSyntaxError m)
    (h429 : strIncludes e.message "429" = false) :
    extractDataFromImage jsonParse parseErrMsg env img hs =
      ⟨.error (rethrowError e), [], 1⟩ ∧
    (rethrowError e = noDataError ∨ rethrowError e = parseFailError) ∧
    (rethrowError e).isSyntaxError = false := by
  have hrl : isRateLimitB e = false := by
    rcases hmal with rfl | ⟨m, rfl⟩
    · simpa [isRateLimitB, noDataError] using h429
    · simpa [isRateLimitB, mkSyntaxError] using h429
  refine ⟨?_, ?_, ?_⟩
  · have hstep : (fun i => attemptStep jsonParse parseErrMsg (env (mkRequest img hs) i)) 0 =
        .error e := by simp [attemptStep, henv, hp]
    have := @extractGo_error_noRetry
      (fun i => attemptStep jsonParse parseErrMsg (env (mkRequest img hs) i))
      maxRetries 0 [] e hstep hrl
    simpa [extractDataFromImage] using this
  · rcases hmal with rfl | ⟨m, rfl⟩
    · left; simp [rethrowError, noDataError]
    · right; simp [rethrowError, mkSyntaxError]
  · rcases hmal with rfl | ⟨m, rfl⟩ <;>
      simp [rethrowError, noDataError, mkSyntaxError, parseFailError]

/-- Witness for C6 (amended): unparsable prose is rewrapped into the
dedicated parse-failure error after one call. -/
theorem malformed_response_distinct_error_no_retry_witness :
    extractDataFromImage demoParse demoMsg
        (fun _ _ => .response (some "Sorry, I cannot read this.")) "img" [] =
      ⟨.error (rethrowError (mkSyntaxError "Unexpected token")), [], 1⟩ ∧
    (rethrowError (mkSyntaxError "Unexpected token") = noDataError ∨
      rethrowError (mkSyntaxError "Unexpected token") = parseFailError) ∧
    (rethrowError (mkSyntaxError "Unexpected token")).isSyntaxError = false :=
  malformed_response_distinct_error_no_retry demoParse demoMsg
    (fun _ _ => .response (some "Sorry, I cannot read this.")) "img" []
    (some "Sorry, I cannot read this.") (mkSyntaxError "Unexpected token")
    rfl rfl (Or.inr ⟨"Unexpected token", rfl⟩) (by decide)

/-- Counterexample for C6 as stated: when the engine's SyntaxError message
happens to contain "429" (here: a parse error at text position 429), the
unparsable response IS retried — five backoff delays and six calls occur
before the failure is surfaced. -/
theorem malformed_response_retried_on_429_message_cex :
    (extractDataFromImage (fun _ => none)
        (fun _ => "Unexpected token S in JSON at position 429")
        (fun _ _ => .response (some "Sorry, I cannot read this.")) "img" []).delays =
      [4000, 8000, 16000, 32000, 64000] ∧
    (extractDataFromImage (fun _ => none)
        (fun _ => "Unexpected token S in JSON at position 429")
        (fun _ _ => .response (some "Sorry, I cannot read this.")) "img" []).calls = 6 :=
  ⟨rfl, rfl⟩

/-- Counterexample for C3 as stated: the client returns the parsed record
unchanged, so a record with a key outside the supplied column list is
returned as-is — extra keys are not dropped by the client. -/
theorem extract_extra_keys_not_dropped_cex :
    (extractDataFromImage demoParse demoMsg
        (fun _ _ => .response (some "\x7b\"a\":1,\"extra\":2\x7d")) "img" ["a"]).result =
      .ok (.obj [("a", .num 1), ("extra", .num 2)]) ∧
    ¬ (∀ k ∈ recordKeys (Json.obj [("a", .num 1), ("extra", .num 2)]), k ∈ ["a"]) := by
  refine ⟨rfl, ?_⟩
  intro h
  have := h "extra" (by simp [recordKeys])
  simp at this

/-- JS property access `row.data[header]` on a parsed record (JSON object
keys are unique, so the first binding is the binding). -/
def jsLookup (data : List (String × Json)) (key : String) : Option Json :=
  data.lookup key

/-- `String(val).replace(/[\t\n\x0d]/g, ' ')` from `copyToClipboard`
(App.tsx line 202). -/
def cleanCellText (s : String) : String :=
  ⟨s.data.map (fun c => if c = '\t' ∨ c = '\n' ∨ c = '\x0d' then ' ' else c)⟩

mutual

/-- JS `String(val)` on a JSON value. -/
def jsDisplayString : Json → String
  | .null => "null"
  | .bool b => if b then "true" else "false"
  | .num n => toString n
  | .str s => s
  | .arr xs => String.intercalate "," (jsArrayElems xs)
  | .obj _ => "[object Object]"

/-- JS `Array.prototype.join(",")` turns null elements into the empty
string and stringifies the rest. -/
def jsArrayElems : List Json → List String
  | [] => []
  | .null :: rest => "" :: jsArrayElems rest
  | v :: rest => jsDisplayString v :: jsArrayElems rest

end

/-- One exported cell (App.tsx lines 199-203): absent keys and falsy
values render as the empty string; otherwise tabs, newlines and carriage
returns in the displayed value become spaces. -/
def tsvCell (data : List (String × Json)) (header : String) : String :=
  match jsLookup data header with
  | none => ""
  | some v => if jsTruthy v then cleanCellText (jsDisplayString v) else ""

/-- The cells of one exported row, in header order (App.tsx lines
198-204). -/
def tsvRowCells (headers : List String) (data : List (String × Json)) : List String :=
  headers.map (tsvCell data)

/-- C3 (amended): the client returns the model's record unchanged — extra
keys are NOT dropped (see the counterexample) — but the fixed-column
export reads only the supplied headers, so two records that agree on the
header columns export identically: extra keys are ignored by the caller. -/
theorem export_cells_ignore_extra_keys (d1 d2 : List (String × Json)) :
    ∀ headers : List String,
      (∀ c ∈ headers, jsLookup d1 c = jsLookup d2 c) →
      tsvRowCells headers d1 = tsvRowCells headers d2 := by
  intro headers
  induction headers with
  | nil => intro _; rfl
  | cons h rest ih =>
      intro hagree
      have h1 : jsLookup d1 h = jsLookup d2 h := hagree h (by simp)
      have h2 : ∀ c ∈ rest, jsLookup d1 c = jsLookup d2 c :=
        fun c hc => hagree c (by simp [hc])
      simp only [tsvRowCells, List.map_cons]
      rw [show tsvCell d1 h = tsvCell d2 h from by simp [tsvCell, h1]]
      exact congrArg _ (ih h2)

/-- Witness for C3 (amended): a record with the extra key exports the same
cells as the record without it, for the fixed column list `["a"]`. -/
theorem export_cells_ignore_extra_keys_witness :
    (∀ c ∈ ["a"], jsLookup [("a", Json.num 1), ("extra", Json.num 2)] c =
      jsLookup [("a", Json.num 1)] c) ∧
    tsvRowCells ["a"] [("a", Json.num 1), ("extra", Json.num 2)] =
      tsvRowCells ["a"] [("a", Json.num 1)] := by
  have hag : ∀ c ∈ ["a"], jsLookup [("a", Json.num 1), ("extra", Json.num 2)] c =
      jsLookup [("a", Json.num 1)] c := by
    intro c hc
    simp at hc
    subst hc
    rfl
  exact ⟨hag, export_cells_ignore_extra_keys
    [("a", Json.num 1), ("extra", Json.num 2)] [("a", Json.num 1)] ["a"] hag⟩

theorem tailRows_length (extract : Nat → Except JsError Json) (idGen timeGen : Nat → String)
    (imgs : List ImageInput) :
    ∀ i, (tailRows extract idGen timeGen i imgs).length = tailOk extract i imgs := by
  induction imgs with
  | nil => intro i; simp [tailRows, tailOk]
  | cons img rest ih =>
      intro i
      cases hx : extract i with
      | ok d => simp [tailRows, tailOk, hx, isOkB, ih]; omega
      | error e => simp [tailRows, tailOk, hx, isOkB, ih]

/-- A non-empty run, written out via the loop's closed form. -/
theorem handleImagesSelected_cons (extract : Nat → Except JsError Json)
    (idGen timeGen : Nat → String) (img : ImageInput) (rest : List ImageInput) :
    handleImagesSelected extract idGen timeGen (img :: rest) =
      ⟨⟨.PROCESSING, some ("Starting processing of " ++ toString (img :: rest).length ++
          " image(s)...")⟩ ::
         (tailEvents (img :: rest).length 0 (img :: rest) ++
          [finalState (img :: rest).length (tailOk extract 0 (img :: rest))
             (tailErrs extract 0 (img :: rest)).length]),
       tailRows extract idGen timeGen 0 (img :: rest),
       tailPauses (img :: rest).length 0 (img :: rest),
       tailErrs extract 0 (img :: rest),
       tailOk extract 0 (img :: rest),
       some (4000, ⟨.IDLE, none⟩)⟩ := by
  simp [handleImagesSelected, batchGo_eq]

/-- C4: for every batch, the number of table rows gained is the batch size
minus the number of failing positions, and every failing position only
adds its filename to the failure list — the loop never aborts early. -/
theorem batch_row_count_eq_total_sub_failures
    (extract : Nat → Except JsError Json) (idGen timeGen : Nat → String)
    (images : List ImageInput) (m : Nat)
    (hm : m = (List.range images.length).countP (fun i => !isOkB (extract i))) :
    (handleImagesSelected extract idGen timeGen images).rows.length =
      images.length - m ∧
    (handleImagesSelected extract idGen timeGen images).errors.length = m := by
  cases images with
  | nil => subst hm; simp [handleImagesSelected]
  | cons img rest =>
      have hlen := tailRows_length extract idGen timeGen (img :: rest) 0
      have herr := tailErrs_length_eq extract (img :: rest) 0
      have hsum := tailOk_add_tailErrs extract (img :: rest) 0
      have herrm : (tailErrs extract 0 (img :: rest)).length = m := by
        rw [herr, hm]
        congr 1
        funext k
        simp
      rw [handleImagesSelected_cons]
      refine ⟨?_, herrm⟩
      show (tailRows extract idGen timeGen 0 (img :: rest)).length =
        (img :: rest).length - m
      rw [hlen]
      omega

/-- Witness for C4: three images with the second failing gain two rows and
one recorded failure. -/
theorem batch_row_count_eq_total_sub_failures_witness :
    (1 = (List.range ([⟨"b1", "one.jpg"⟩, ⟨"b2", "two.jpg"⟩,
        ⟨"b3", "three.jpg"⟩] : List ImageInput).length).countP
      (fun i => !isOkB (if i = 1 then .error noDataError
        else .ok (.obj [("a", Json.num 1)])))) ∧
    ((handleImagesSelected
        (fun i => if i = 1 then .error noDataError else .ok (.obj [("a", Json.num 1)]))
        (fun _ => "id") (fun _ => "ts")
        [⟨"b1", "one.jpg"⟩, ⟨"b2", "two.jpg"⟩, ⟨"b3", "three.jpg"⟩]).rows.length =
      ([⟨"b1", "one.jpg"⟩, ⟨"b2", "two.jpg"⟩,
        ⟨"b3", "three.jpg"⟩] : List ImageInput).length - 1 ∧
     (handleImagesSelected
        (fun i => if i = 1 then .error noDataError else .ok (.obj [("a", Json.num 1)]))
        (fun _ => "id") (fun _ => "ts")
        [⟨"b1", "one.jpg"⟩, ⟨"b2", "two.jpg"⟩, ⟨"b3", "three.jpg"⟩]).errors.length = 1) :=
  ⟨by decide,
   batch_row_count_eq_total_sub_failures
    (fun i => if i = 1 then .error noDataError else .ok (.obj [("a", Json.num 1)]))
    (fun _ => "id") (fun _ => "ts")
    [⟨"b1", "one.jpg"⟩, ⟨"b2", "two.jpg"⟩, ⟨"b3", "three.jpg"⟩] 1 (by decide)⟩

/-- Counterexample for C7 as stated: an empty batch makes the handler
return before the loop, so NO terminal transition (and no scheduled reset
to Idle) happens at all, although zero images succeeded. -/
theorem empty_batch_no_terminal_transition_cex :
    (handleImagesSelected (fun _ => .error noDataError) (fun _ => "id") (fun _ => "ts")
        []).statusEvents = [] ∧
    (handleImagesSelected (fun _ => .error noDataError) (fun _ => "id") (fun _ => "ts")
        []).scheduledReset = none ∧
    ∀ (pre : List ProcessingState) (st : ProcessingState),
      ([] : List ProcessingState) ≠ pre ++ [st] := by
  refine ⟨rfl, rfl, ?_⟩
  intro pre st h
  cases pre <;> simp at h

/-- C7 (amended): for every NON-empty batch, the run ends by setting
SUCCESS with the "processed p of N" message (plus a parenthetical failure
count when any failed) when at least one image succeeded, and ERROR when
none did, and in either case schedules the reset to Idle after the fixed
4000 ms display delay. -/
theorem nonempty_batch_terminal_state_and_reset
    (extract : Nat → Except JsError Json) (idGen timeGen : Nat → String)
    (images : List ImageInput) (hne : images ≠ []) :
    (handleImagesSelected extract idGen timeGen images).scheduledReset =
      some (4000, ⟨.IDLE, none⟩) ∧
    (handleImagesSelected extract idGen timeGen images).processedCount =
      (List.range images.length).countP (fun i => isOkB (extract i)) ∧
    ∃ pre, (handleImagesSelected extract idGen timeGen images).statusEvents =
      pre ++
      [if (handleImagesSelected extract idGen timeGen images).processedCount > 0 then
         (⟨.SUCCESS, some (successMessage
             (handleImagesSelected extract idGen timeGen images).processedCount
             images.length
             (handleImagesSelected extract idGen timeGen images).errors.length)⟩ :
           ProcessingState)
       else ⟨.ERROR, some "Failed to process selected images."⟩] := by
  cases images with
  | nil => exact absurd rfl hne
  | cons img rest =>
      rw [handleImagesSelected_cons]
      refine ⟨rfl, ?_, ?_⟩
      · show tailOk extract 0 (img :: rest) = _
        rw [tailOk_eq]
        congr 1
        funext k
        simp
      · refine ⟨⟨.PROCESSING, some ("Starting processing of " ++
          toString (img :: rest).length ++ " image(s)...")⟩ ::
          tailEvents (img :: rest).length 0 (img :: rest), ?_⟩
        show _ :: (tailEvents _ 0 _ ++ [finalState _ _ _]) = _
        simp [finalState]

/-- Witness for C7 (amended): a concrete singleton batch schedules the
4-second reset to Idle. -/
theorem nonempty_batch_terminal_state_and_reset_witness :
    (handleImagesSelected (fun _ => .ok (.obj [("a", Json.num 1)]))
        (fun _ => "id") (fun _ => "ts") [⟨"b1", "one.jpg"⟩]).scheduledReset =
      some (4000, ⟨.IDLE, none⟩) :=
  (nonempty_batch_terminal_state_and_reset (fun _ => .ok (.obj [("a", Json.num 1)]))
    (fun _ => "id") (fun _ => "ts") [⟨"b1", "one.jpg"⟩] (by decide)).1

/-- C8: for every batch, a 5000 ms pause happens after processing image
`i` exactly when `i` is not the last index — unconditionally, whether or
not that image's extraction failed — and no pause follows the final
image. -/
theorem batch_pause_after_each_nonfinal_image
    (extract : Nat → Except JsError Json) (idGen timeGen : Nat → String)
    (images : List ImageInput) :
    (handleImagesSelected extract idGen timeGen images).pauses =
      (List.range images.length).filterMap
        (fun i => if i < images.length - 1 then some (i, 5000) else none) := by
  cases images with
  | nil => rfl
  | cons img rest =>
      rw [handleImagesSelected_cons]
      show tailPauses (img :: rest).length 0 (img :: rest) = _
      rw [tailPauses_eq, List.range_eq_range']

/-- The rows the spec promises: the successful images' rows in submission
order (one `filterMap` over the enumerated batch). -/
def specOrderedRows (extract : Nat → Except JsError Json) (idGen timeGen : Nat → String)
    (images : List ImageInput) : List TableRow :=
  images.enum.filterMap
    (fun q =>
      match extract q.1 with
      | .ok d => some (rowFor idGen timeGen q.1 d q.2.fileName)
      | .error _ => none)

/-- C9: rows are appended in submission order (exactly the successful
images, in order), and the status trace shows the calls issued one at a
time in submission order: the start message, then one progress message
per image in index order, then the terminal message. -/
theorem batch_rows_in_submission_order
    (extract : Nat → Except JsError Json) (idGen timeGen : Nat → String)
    (images : List ImageInput) (hne : images ≠ []) :
    (handleImagesSelected extract idGen timeGen images).rows =
      specOrderedRows extract idGen timeGen images ∧
    (handleImagesSelected extract idGen timeGen images).statusEvents =
      ⟨.PROCESSING, some ("Starting processing of " ++ toString images.length ++
        " image(s)...")⟩ ::
      (images.enum.map
        (fun q => ⟨.PROCESSING, some (processingMsg q.1 images.length q.2.fileName)⟩) ++
       [finalState images.length
         (handleImagesSelected extract idGen timeGen images).processedCount
         (handleImagesSelected extract idGen timeGen images).errors.length]) := by
  cases images with
  | nil => exact absurd rfl hne
  | cons img rest =>
      rw [handleImagesSelected_cons]
      constructor
      · show tailRows extract idGen timeGen 0 (img :: rest) = _
        rw [tailRows_eq]
        rfl
      · show _ :: (tailEvents _ 0 _ ++ [finalState _ _ _]) = _
        rw [tailEvents_eq]
        rfl

/-- Witness for C9: three images with the second failing yield exactly the
successful rows in submission order. -/
theorem batch_rows_in_submission_order_witness :
    (handleImagesSelected
        (fun i => if i = 1 then .error noDataError else .ok (.obj [("a", Json.num 1)]))
        (fun _ => "id") (fun _ => "ts")
        [⟨"b1", "one.jpg"⟩, ⟨"b2", "two.jpg"⟩, ⟨"b3", "three.jpg"⟩]).rows =
      specOrderedRows
        (fun i => if i = 1 then .error noDataError else .ok (.obj [("a", Json.num 1)]))
        (fun _ => "id") (fun _ => "ts")
        [⟨"b1", "one.jpg"⟩, ⟨"b2", "two.jpg"⟩, ⟨"b3", "three.jpg"⟩] :=
  (batch_rows_in_submission_order
    (fun i => if i = 1 then .error noDataError else .ok (.obj [("a", Json.num 1)]))
    (fun _ => "id") (fun _ => "ts")
    [⟨"b1", "one.jpg"⟩, ⟨"b2", "two.jpg"⟩, ⟨"b3", "three.jpg"⟩] (by decide)).1
